import Mathlib

/-!
Shallow embedding of the game-session backend (FastAPI/WebSocket arena game):
the participant models (`Player`, `BotPlayer`), the session registry
(`GameState`), the snapshot operation, the autonomous bot motion step, and
the connection-lifecycle paths of the server (`connectStep`,
`cleanupAfterLoop`, `delayed_player_removal`, `handleMessage`).

Conventions of the embedding:
* Python dicts (string-keyed, insertion ordered) become association lists
  with `dictGet` / `dictInsert` / `dictRemove`; `dictInsert` replaces the
  value in place when the key exists and appends otherwise, exactly the
  semantics of `d[k] = v`.
* Python floats become `ℚ`.  The float functions `math.sin`, `math.cos` and
  the float constant `math.pi` are external library values; they enter the
  model as an explicit `MathEnv` parameter, and theorems carry as
  hypotheses exactly the facts the library guarantees (e.g. `|sin y| ≤ 1`).
  Python's float `%` (sign of the divisor) becomes `pmod`.
* Calls to `random.uniform`, `random.choice`, `random.random` and
  `time.time()` become explicit parameters (`RandEnv`, `current_time`), so
  one tick of a bot is a pure function of the drawn values.
* A Python exception propagating out of a call is `Except.error`; the
  dynamic (duck-typed) call of `Player.update_position` is modelled by
  `Player.update_position_apply`, which performs CPython's positional-arity
  check on an explicit argument list.
-/

/-! ## Python dict as an insertion-ordered association list -/

/-- Lookup in a string-keyed dict: `d[k]` / `k in d`. -/
def dictGet {α : Type} (d : List (String × α)) (k : String) : Option α :=
  match d with
  | [] => none
  | (k', v) :: rest => if k' = k then some v else dictGet rest k

/-- Assignment `d[k] = v`: replace in place if the key exists, else append. -/
def dictInsert {α : Type} (d : List (String × α)) (k : String) (v : α) :
    List (String × α) :=
  match d with
  | [] => [(k, v)]
  | (k', v') :: rest =>
      if k' = k then (k, v) :: rest else (k', v') :: dictInsert rest k v

/-- Deletion `del d[k]` (removes every binding of `k`; dicts built by the
operations above bind each key at most once). -/
def dictRemove {α : Type} (d : List (String × α)) (k : String) :
    List (String × α) :=
  d.filter (fun p => p.1 ≠ k)

/-- Python's `{**a, **b}` merge restricted to the second dict: fold the
entries of `l` into `acc` by assignment, transforming values by `f`. -/
def mergeInto {α β : Type} (acc : List (String × β)) (l : List (String × α))
    (f : α → β) : List (String × β) :=
  l.foldl (fun a p => dictInsert a p.1 (f p.2)) acc

/-! ## Participant model (`app/models/player.py`) -/

/-- The pydantic `Position` model of a human participant: `{x, y, z}`. -/
structure Position where
  x : ℚ
  y : ℚ
  z : ℚ
deriving DecidableEq, Repr

/-- One human participant (`class Player(BaseModel)`). -/
structure Player where
  id : String
  position : Option Position := some { x := 0, y := 1, z := 0 }
  is_eliminated : Bool := false
  score : Int := 0
deriving DecidableEq, Repr

/-- The serialized human record returned by `Player.to_dict`. -/
structure PlayerDict where
  id : String
  position : Option Position
  is_eliminated : Bool
  score : Int
deriving DecidableEq, Repr

def Player.to_dict (p : Player) : PlayerDict :=
  { id := p.id, position := p.position, is_eliminated := p.is_eliminated,
    score := p.score }

def Player.update_position (p : Player) (x y z : ℚ) : Player :=
  { p with position := some { x := x, y := y, z := z } }

def Player.eliminate (p : Player) : Player :=
  { p with is_eliminated := true }

def Player.add_score (p : Player) (points : Int) : Player :=
  { p with score := p.score + points }

/-- A dynamic Python value, as far as the position-update call path needs
to distinguish shapes: a float or a dict payload. -/
inductive PyVal : Type
  | num (q : ℚ)
  | dict (d : List (String × ℚ))
deriving DecidableEq, Repr

/-- The dynamic call `player.update_position(*args)`.  CPython checks the
positional arity of `def update_position(self, x, y, z)` before the body
runs, and pydantic's `Position(x=..., y=..., z=...)` requires floats, so a
call succeeds exactly on three numeric arguments; anything else raises
`TypeError`. -/
def Player.update_position_apply (p : Player) (args : List PyVal) :
    Except String Player :=
  match args with
  | [PyVal.num x, PyVal.num y, PyVal.num z] =>
      Except.ok (p.update_position x y z)
  | _ => Except.error "TypeError"

/-! ## Bot participant model (`app/models/bot_player.py`) -/

/-- The bot's `self.position` dict with its fixed keys
`x, y, z, rotation, speed, useTrails`. -/
structure BotPos where
  x : ℚ
  y : ℚ
  z : ℚ
  rotation : ℚ
  speed : ℚ
  useTrails : Bool
deriving DecidableEq, Repr

/-- One simulated participant (`class BotPlayer(Player)`); the inherited
`position` field is overridden by the dict above. -/
structure BotPlayer where
  id : String
  is_eliminated : Bool := false
  score : Int := 0
  use_light_trails : Bool := false
  speed : ℚ
  direction : ℚ
  next_turn_time : ℚ
  last_update_time : ℚ := 0
  active : Bool
  spawn_time : ℚ
  update_frequency : ℚ := 1 / 10
  last_position_update : ℚ := 0
  position : BotPos
deriving DecidableEq, Repr

/-- The serialized bot record that `BotPlayer.to_dict` sets out to build
for an active bot: the inherited fields plus `is_bot`,
`use_light_trails`, `active`.  The source never completes one (see
`BotPlayer.to_dict` below), but the type names the shape the dead code
after `super().to_dict()` describes. -/
structure BotDict where
  id : String
  position : BotPos
  is_eliminated : Bool
  score : Int
  is_bot : Bool
  use_light_trails : Bool
  active : Bool
deriving DecidableEq, Repr

/-- `BotPlayer.to_dict`: a not-yet-active bot returns Python `None` (the
sentinel) before touching any other field.  An active bot first calls
`super().to_dict()`, which evaluates `self.position.dict() if
self.position else None` — but a bot's `position` is the plain dict
assigned raw in `__init__` (no model enables `validate_assignment`, and
the rest of the bot code subscripts it as a dict), it is never empty
(the constructor sets six keys, so the truthiness test passes), and a
plain dict has no `.dict()` method: the call raises `AttributeError`. -/
def BotPlayer.to_dict (b : BotPlayer) : Except String (Option BotDict) :=
  if b.active then Except.error "AttributeError"
  else Except.ok none

def BotPlayer.eliminate (b : BotPlayer) : BotPlayer :=
  { b with is_eliminated := true }

/-! ## Autonomous motion engine (`BotPlayer.update_bot`) -/

/-- Python's float `%` for a nonzero divisor: the result carries the sign
of the divisor, `a % b = a - b * floor(a / b)`. -/
def pmod (a b : ℚ) : ℚ := a - b * (⌊a / b⌋ : ℤ)

/-- The float library values `math.pi`, `math.sin`, `math.cos` as the model
sees them: external real-function approximations.  Theorems assume of them
only what the library guarantees (`0 < pi`, `|sin y| ≤ 1`, ...). -/
structure MathEnv where
  pi : ℚ
  sin : ℚ → ℚ
  cos : ℚ → ℚ

/-- The values drawn from `random` during one call of `update_bot`, in the
order the code would draw them (scheduled-turn sign and amount, the next
turn delay, the `random.random()` sample against `turn_probability`, the
small-turn sign and amount, and the two boundary noise terms). -/
structure RandEnv where
  turn_sign : ℚ
  turn_amount : ℚ
  next_turn_delay : ℚ
  rand_val : ℚ
  turn_sign2 : ℚ
  turn_amount2 : ℚ
  noise_x : ℚ
  noise_z : ℚ

/-- The arena is a square of side 500 centered at the origin. -/
def arena_size : ℚ := 500

/-- Direction-update phase of `update_bot` (lines 76–96): a scheduled big
turn when the accumulated active time has reached `next_turn_time`, else a
small random turn with probability `turn_probability`; the direction is
normalized to `[0, 2π)` after every change.  The `Bool` is the
`position_changed` flag this phase contributes. -/
def BotPlayer.stepTurn (b : BotPlayer) (turn_probability : ℚ) (env : MathEnv)
    (rnd : RandEnv) : BotPlayer × Bool :=
  if b.last_update_time ≥ b.next_turn_time then
    ({ b with
        direction :=
          pmod (b.direction + rnd.turn_sign * rnd.turn_amount) (2 * env.pi),
        next_turn_time := b.last_update_time + rnd.next_turn_delay }, true)
  else if rnd.rand_val < turn_probability then
    ({ b with
        direction :=
          pmod (b.direction + rnd.turn_sign2 * rnd.turn_amount2)
            (2 * env.pi) }, true)
  else (b, false)

/-- Displacement phase of `update_bot` (lines 98–104):
`x += sin(direction) * speed * Δt`, `z += cos(direction) * speed * Δt`,
and the position's `rotation` key is set to the current direction. -/
def BotPlayer.stepMove (b : BotPlayer) (delta_time : ℚ) (env : MathEnv) :
    BotPlayer :=
  { b with position :=
      { b.position with
          x := b.position.x + env.sin b.direction * b.speed * delta_time,
          z := b.position.z + env.cos b.direction * b.speed * delta_time,
          rotation := b.direction } }

/-- X-boundary bounce of `update_bot` (lines 111–114): if `|x|` exceeds the
half arena, clamp `x` to the signed boundary and reflect the direction to
`π - direction + noise`. -/
def BotPlayer.stepBounceX (b : BotPlayer) (env : MathEnv) (rnd : RandEnv) :
    BotPlayer × Bool :=
  let half_size := arena_size / 2
  if |b.position.x| > half_size then
    ({ b with
        position :=
          { b.position with
              x := half_size * (if b.position.x > 0 then 1 else -1) },
        direction := env.pi - b.direction + rnd.noise_x }, true)
  else (b, false)

/-- Z-boundary bounce of `update_bot` (lines 116–119): clamp `z` and set
the direction to `-direction + noise`. -/
def BotPlayer.stepBounceZ (b : BotPlayer) (rnd : RandEnv) :
    BotPlayer × Bool :=
  let half_size := arena_size / 2
  if |b.position.z| > half_size then
    ({ b with
        position :=
          { b.position with
              z := half_size * (if b.position.z > 0 then 1 else -1) },
        direction := -b.direction + rnd.noise_z }, true)
  else (b, false)

/-- The applied part of a tick (lines 72–129), run once the activation and
throttle gates have been passed: record the applied-update time, turn,
displace, bounce off both boundaries, normalize the direction, and compare
the net displacement to zero. -/
def BotPlayer.appliedTick (b : BotPlayer) (delta_time turn_probability : ℚ)
    (env : MathEnv) (rnd : RandEnv) (current_time : ℚ) :
    BotPlayer × Bool :=
  let b2 := { b with last_update_time := b.last_update_time + delta_time,
                     last_position_update := current_time }
  let tns := b2.stepTurn turn_probability env rnd
  let old_x := tns.1.position.x
  let old_z := tns.1.position.z
  let b4 := tns.1.stepMove delta_time env
  let bxs := b4.stepBounceX env rnd
  let bzs := bxs.1.stepBounceZ rnd
  let b7 := { bzs.1 with direction := pmod bzs.1.direction (2 * env.pi) }
  let distSq : ℚ :=
    (b7.position.x - old_x) ^ 2 + (b7.position.z - old_z) ^ 2
  let movedB : Bool := if 0 < distSq then true else false
  (b7, tns.2 || bxs.2 || bzs.2 || movedB)

/-- The state right after the direction-update phase of an applied tick:
the input to the displacement and boundary steps. -/
def BotPlayer.afterTurn (b : BotPlayer) (delta_time turn_probability : ℚ)
    (env : MathEnv) (rnd : RandEnv) (current_time : ℚ) : BotPlayer :=
  (({ b with last_update_time := b.last_update_time + delta_time,
             last_position_update := current_time }).stepTurn
    turn_probability env rnd).1

/-- The motion pipeline applied to the post-turn state: displacement,
x-bounce, z-bounce, final direction normalization — the state part of
`appliedTick` as a function of `afterTurn`'s result. -/
def pipelineAfterTurn (a : BotPlayer) (dt : ℚ) (env : MathEnv)
    (rnd : RandEnv) : BotPlayer :=
  let bzs := (((a.stepMove dt env).stepBounceX env rnd).1).stepBounceZ rnd
  { bzs.1 with direction := pmod bzs.1.direction (2 * env.pi) }

/-- One tick of the motion engine, `BotPlayer.update_bot(delta_time,
turn_probability)`.  Faithful to the source's order of effects:
activation check first (an inactive bot activates exactly when
`current_time ≥ spawn_time`, reporting `True` on that tick and `False`
with no other change before it); then `last_update_time += delta_time`;
then the wall-clock throttle against `update_frequency`; then the applied
tick.  The square root in the source's `distance_moved > 0` test is
monotone, so the test is the squared-distance comparison. -/
def BotPlayer.update_bot (b : BotPlayer) (delta_time turn_probability : ℚ)
    (env : MathEnv) (rnd : RandEnv) (current_time : ℚ) :
    BotPlayer × Bool :=
  if !b.active then
    if current_time ≥ b.spawn_time then ({ b with active := true }, true)
    else (b, false)
  else
    let b1 := { b with last_update_time := b.last_update_time + delta_time }
    if current_time - b1.last_position_update < b1.update_frequency then
      (b1, false)
    else
      b.appliedTick delta_time turn_probability env rnd current_time

/-! ## Session registry (`app/game/game_state.py`) -/

/-- The session state.  The scheduler bookkeeping fields of the source
(`last_bot_update`, the asyncio task handle `bot_update_task`) are pure
scheduling plumbing touched by no registry operation and are not
modelled. -/
structure GameState where
  players : List (String × Player)
  bots : List (String × BotPlayer)
  eliminated_players : List String
  game_phase : String
  current_round : Int
  min_players : Nat
deriving DecidableEq, Repr

/-- `GameState.__init__`. -/
def GameState.init : GameState :=
  { players := [], bots := [], eliminated_players := [],
    game_phase := "waiting", current_round := 0, min_players := 2 }

/-- `GameState.add_player`: unconditionally installs a fresh `Player`
under the id (overwriting any existing entry) and returns `True`. -/
def GameState.add_player (gs : GameState) (pid : String) : GameState × Bool :=
  ({ gs with players := dictInsert gs.players pid { id := pid } }, true)

/-- `GameState.remove_player`: drop the id from `players` if present, and
remove it from `eliminated_players` if present (`list.remove` drops the
first occurrence). -/
def GameState.remove_player (gs : GameState) (pid : String) : GameState :=
  { gs with
      players :=
        if (dictGet gs.players pid).isSome then dictRemove gs.players pid
        else gs.players,
      eliminated_players :=
        if pid ∈ gs.eliminated_players then
          gs.eliminated_players.erase pid
        else gs.eliminated_players }

/-- `GameState.update_player_position`: if the id is registered, route the
position dict to the player's `update_position` method — a call that
passes the single dict where `update_position(self, x, y, z)` expects
three floats.  An error is a raised exception reaching the caller. -/
def GameState.update_player_position (gs : GameState) (pid : String)
    (position : List (String × ℚ)) : Except String GameState :=
  match dictGet gs.players pid with
  | none => Except.ok gs
  | some p =>
      match p.update_position_apply [PyVal.dict position] with
      | Except.ok p' =>
          Except.ok { gs with players := dictInsert gs.players pid p' }
      | Except.error e => Except.error e

/-- `GameState.eliminate_player`: mark the human (else the bot) eliminated
and append the id to `eliminated_players`, but only when the id is not
already in that list; unknown ids are ignored. -/
def GameState.eliminate_player (gs : GameState) (pid : String) : GameState :=
  match dictGet gs.players pid, dictGet gs.bots pid with
  | some p, _ =>
      if pid ∈ gs.eliminated_players then gs
      else { gs with
               players := dictInsert gs.players pid p.eliminate,
               eliminated_players := gs.eliminated_players ++ [pid] }
  | none, some b =>
      if pid ∈ gs.eliminated_players then gs
      else { gs with
               bots := dictInsert gs.bots pid b.eliminate,
               eliminated_players := gs.eliminated_players ++ [pid] }
  | none, none => gs

/-- A value of the merged snapshot mapping: a serialized human or a
serialized bot record. -/
inductive SnapVal : Type
  | humanV (d : PlayerDict)
  | botV (d : BotDict)
deriving DecidableEq, Repr

/-- The dict returned by `GameState.get_state`.  A `players` value of
`none` is Python's `None`, the sentinel `BotPlayer.to_dict` yields for an
inactive bot. -/
structure StateSnapshot where
  players : List (String × Option SnapVal)
  eliminated_players : List String
  game_phase : String
  current_round : Int
  player_count : Nat
  min_players : Nat
  bot_count : Nat
deriving DecidableEq, Repr

/-- The dict comprehension `{bot_id: bot.to_dict() for bot_id, bot in
self.bots.items()}`: evaluates `to_dict` per bot in registry order, and
the first raised exception propagates. -/
def botSnapEntries :
    List (String × BotPlayer) →
    Except String (List (String × Option BotDict))
  | [] => Except.ok []
  | (bid, b) :: rest =>
      match b.to_dict with
      | Except.error e => Except.error e
      | Except.ok d =>
          match botSnapEntries rest with
          | Except.error e => Except.error e
          | Except.ok ds => Except.ok ((bid, d) :: ds)

/-- `GameState.get_state`: merge `{**player_dicts, **bot_dicts}` (bot
entries overwrite a same-keyed human entry) and report the aggregate
counts.  An exception raised while serializing a bot — which happens for
every active bot, see `BotPlayer.to_dict` — propagates, and no snapshot
is returned. -/
def GameState.get_state (gs : GameState) : Except String StateSnapshot :=
  match botSnapEntries gs.bots with
  | Except.error e => Except.error e
  | Except.ok bot_entries =>
      let human_entries :=
        gs.players.map (fun p => (p.1, some (SnapVal.humanV p.2.to_dict)))
      let all_players :=
        mergeInto human_entries bot_entries (Option.map SnapVal.botV)
      Except.ok
        { players := all_players,
          eliminated_players := gs.eliminated_players,
          game_phase := gs.game_phase,
          current_round := gs.current_round,
          player_count := gs.players.length + gs.bots.length,
          min_players := gs.min_players,
          bot_count := gs.bots.length }

/-- `GameState.can_start_game`: humans plus bots reach `min_players`. -/
def GameState.can_start_game (gs : GameState) : Bool :=
  gs.players.length + gs.bots.length ≥ gs.min_players

/-- `GameState.start_game`: on success enter `playing`, set round 1 and
clear the eliminated list; otherwise do nothing. -/
def GameState.start_game (gs : GameState) : GameState :=
  if gs.can_start_game then
    { gs with game_phase := "playing", current_round := 1,
              eliminated_players := [] }
  else gs

/-- `GameState.end_game`: set the phase to `finished`; nothing else
changes (in particular `current_round` keeps its value). -/
def GameState.end_game (gs : GameState) : GameState :=
  { gs with game_phase := "finished" }

/-- `GameState.remove_all_bots`: clear the bot registry and keep only
still-registered humans in the eliminated list. -/
def GameState.remove_all_bots (gs : GameState) : GameState :=
  { gs with
      bots := [],
      eliminated_players :=
        gs.eliminated_players.filter
          (fun p => (dictGet gs.players p).isSome) }

/-! ## Connection lifecycle and message loop (`app/main.py`)

The transport is the collaborator: a connection is an opaque handle
(`Nat`), an inbound frame is either invalid JSON (`none`) or a parsed
object, and a broadcast is recorded as an emitted event.  The model keeps
the order of effects of the source: mutate the registry, then broadcast.
-/

/-- An outbound broadcast event, tagged with the id it concerns. -/
inductive Ev : Type
  | player_joined (pid : String)
  | player_left (pid : String)
  | player_moved (pid : String)
  | player_eliminated (pid : String)
  | player_kill (killer victim : String)
  | chat_message (pid : String)
deriving DecidableEq, Repr

/-- The process-wide shared state of `main.py`: the connection table, the
game state, the stream of broadcast events so far, and the pending
`delayed_player_removal` tasks with their fire times. -/
structure ServerState where
  active_connections : List (String × Nat)
  game : GameState
  events : List Ev
  pending_removals : List (String × ℚ)
deriving DecidableEq, Repr

/-- The `finally` block of `websocket_endpoint` (lines 275–287), run when
the handler loop ends at time `t`: if this connection is still the
registered one, delete it, remove the player from the game state at once,
and broadcast `player_left` at once; in every case schedule a
`delayed_player_removal` task to fire 5 seconds later. -/
def cleanupAfterLoop (s : ServerState) (pid : String) (conn : Nat) (t : ℚ) :
    ServerState :=
  let s1 :=
    if dictGet s.active_connections pid = some conn then
      { s with
          active_connections := dictRemove s.active_connections pid,
          game := s.game.remove_player pid,
          events := s.events ++ [Ev.player_left pid] }
    else s
  { s1 with pending_removals := s1.pending_removals ++ [(pid, t + 5)] }

/-- `delayed_player_removal` (lines 290–308) firing after its sleep: if
the id has no registered connection, remove the participant and broadcast
`player_left`; otherwise do nothing. -/
def delayed_player_removal (s : ServerState) (pid : String) : ServerState :=
  if dictGet s.active_connections pid = none then
    { s with
        game := s.game.remove_player pid,
        events := s.events ++ [Ev.player_left pid] }
  else s

/-- The connect prologue of `websocket_endpoint` (lines 141–186) at time
`t`: reconnection is detected by the id still holding a registered
connection.  A fresh id is added to the game state and `player_joined` is
broadcast to the others.  On the reconnection branch the source calls
`game_state.update_player(player_id)` — a method `GameState` does not
define — so an `AttributeError` propagates to the outer handler and the
`finally` cleanup runs for the just-registered connection. -/
def connectStep (s : ServerState) (pid : String) (conn : Nat) (t : ℚ) :
    ServerState :=
  let is_reconnection := (dictGet s.active_connections pid).isSome
  let s1 :=
    { s with active_connections := dictInsert s.active_connections pid conn }
  if is_reconnection then
    cleanupAfterLoop s1 pid conn t
  else
    { s1 with
        game := (s1.game.add_player pid).1,
        events := s1.events ++ [Ev.player_joined pid] }

/-- The `data` object of a parsed inbound message, with the fields the
handler reads; a missing key is `none` and reading it raises `KeyError`. -/
structure MsgData where
  position : Option (List (String × ℚ)) := none
  killer : Option String := none
  victim : Option String := none
  chat_player_id : Option String := none
  chat_player_name : Option String := none
  message : Option String := none
deriving Repr

/-- A parsed inbound JSON object `{type, data}`; either key may be
missing. -/
structure JsonMsg where
  typ : Option String
  data : Option MsgData
deriving Repr

/-- Result of one iteration of the handler loop: the updated game state,
the events broadcast during the iteration, the (possibly rebound) loop
variable `player_id`, and whether the loop keeps running. -/
structure HandlerStep where
  game : GameState
  out : List Ev
  pid : String
  keep_running : Bool
deriving Repr

/-- `killer.split('-')[0] if '-' in killer else killer` (lines 227–228). -/
def stripIdSuffix (s : String) : String :=
  if s.contains '-' then (s.splitOn "-").headD "" else s

/-- One iteration of the `while True` message loop (lines 188–269) for the
current loop variable `pid`.  `m = none` is invalid JSON
(`json.loads` raises); a missing `type` or required `data` field raises
`KeyError`.  Every exception of an iteration — including those — is
caught by `except Exception` (line 267), which logs and `break`s, ending
the loop; the claim-relevant observable is `keep_running = false`.  A
message whose `type` matches no branch falls through with no effect.
`chat_message` rebinds the loop variable `player_id` (line 243). -/
def handleMessage (pid : String) (gs : GameState) (m : Option JsonMsg) :
    HandlerStep :=
  match m with
  | none => { game := gs, out := [], pid := pid, keep_running := false }
  | some msg =>
      match msg.typ with
      | none => { game := gs, out := [], pid := pid, keep_running := false }
      | some ty =>
          if ty = "player_move" then
            match msg.data with
            | none => { game := gs, out := [], pid := pid,
                        keep_running := false }
            | some d =>
                match d.position with
                | none => { game := gs, out := [], pid := pid,
                            keep_running := false }
                | some posd =>
                    match gs.update_player_position pid posd with
                    | Except.ok gs' =>
                        { game := gs', out := [Ev.player_moved pid],
                          pid := pid, keep_running := true }
                    | Except.error _ =>
                        { game := gs, out := [], pid := pid,
                          keep_running := false }
          else if ty = "player_eliminated" then
            { game := gs.eliminate_player pid,
              out := [Ev.player_eliminated pid], pid := pid,
              keep_running := true }
          else if ty = "player_kill" then
            match msg.data with
            | none => { game := gs, out := [], pid := pid,
                        keep_running := false }
            | some d =>
                let killer := d.killer.getD "Unknown"
                let victim := d.victim.getD "Unknown"
                { game := gs,
                  out := [Ev.player_kill (stripIdSuffix killer)
                            (stripIdSuffix victim)],
                  pid := pid, keep_running := true }
          else if ty = "chat_message" then
            match msg.data with
            | none => { game := gs, out := [], pid := pid,
                        keep_running := false }
            | some d =>
                let pid' := d.chat_player_id.getD "Unknown"
                { game := gs, out := [Ev.chat_message pid'], pid := pid',
                  keep_running := true }
          else if ty = "player_disconnect" then
            { game := gs, out := [], pid := pid, keep_running := false }
          else
            { game := gs, out := [], pid := pid, keep_running := true }

/-- A message is malformed when `json.loads` fails or a field the handler
unconditionally reads for its type is missing: `type` itself; `data` and
`data["position"]` for `player_move`; `data` for `player_kill` and
`chat_message` (both index `message["data"]` before any `.get`). -/
def Malformed (m : Option JsonMsg) : Prop :=
  m = none ∨
  ∃ msg, m = some msg ∧
    (msg.typ = none ∨
      (msg.typ = some "player_move" ∧
        (msg.data = none ∨ ∃ d, msg.data = some d ∧ d.position = none)) ∨
      (msg.typ = some "player_kill" ∧ msg.data = none) ∨
      (msg.typ = some "chat_message" ∧ msg.data = none))

/-! ## Reachable session states

The registry operations a session undergoes: construction, start/end,
add/remove/eliminate, position updates (kept states are the non-raising
outcomes), bot population changes.  `addBot` over-approximates
`add_bots`: it allows any bot value under any id, which subsumes the
freshly constructed bots of the source. -/

inductive Reachable : GameState → Prop
  | init : Reachable GameState.init
  | start {gs} : Reachable gs → Reachable gs.start_game
  | finish {gs} : Reachable gs → Reachable gs.end_game
  | add {gs} (pid : String) : Reachable gs → Reachable (gs.add_player pid).1
  | remove {gs} (pid : String) : Reachable gs →
      Reachable (gs.remove_player pid)
  | elim {gs} (pid : String) : Reachable gs →
      Reachable (gs.eliminate_player pid)
  | move {gs gs'} (pid : String) (d : List (String × ℚ)) :
      Reachable gs → gs.update_player_position pid d = Except.ok gs' →
      Reachable gs'
  | addBot {gs} (bid : String) (b : BotPlayer) : Reachable gs →
      Reachable { gs with bots := dictInsert gs.bots bid b }
  | clearBots {gs} : Reachable gs → Reachable gs.remove_all_bots

/-! ## Concrete states used by witnesses and counterexamples -/

def botPosEx : BotPos :=
  { x := 10, y := 1 / 4, z := 20, rotation := 0, speed := 50,
    useTrails := false }

/-- An active bot, as `GameState.add_bots` creates them
(`spawn_delay = 0`, hence `active = True`). -/
def botActiveEx : BotPlayer :=
  { id := "Bot_1", speed := 50, direction := 0, next_turn_time := 3,
    active := true, spawn_time := 0, position := botPosEx }

/-- A not-yet-activated bot, as `BotManager.create_bots` builds them with a
positive `spawn_delay`. -/
def botInactiveEx : BotPlayer :=
  { id := "Bot_9", speed := 60, direction := 1, next_turn_time := 2,
    active := false, spawn_time := 100, position := botPosEx }

/-- A session holding one inactive bot. -/
def gsInactiveBot : GameState :=
  { GameState.init with bots := [("Bot_9", botInactiveEx)] }

/-- A session holding one active bot. -/
def gsActiveBot : GameState :=
  { GameState.init with bots := [("Bot_1", botActiveEx)] }

/-- A fresh session with the single human `player1`. -/
def gsP1 : GameState := (GameState.init.add_player "player1").1

/-- A session in which the bot id `Bot_1` was eliminated and then
`add_player "Bot_1"` re-added the id as a human. -/
def gsC10 : GameState :=
  ((({ GameState.init with
        bots := [("Bot_1", botActiveEx)] }).eliminate_player
      "Bot_1").add_player "Bot_1").1

/-- A session with an eliminated human `p2` whose id is then re-added. -/
def gsC10h : GameState :=
  (((GameState.init.add_player "p2").1.eliminate_player
      "p2").add_player "p2").1

def mathEnvEx : MathEnv :=
  { pi := 355 / 113, sin := fun _ => 0, cos := fun _ => 1 }

def randEnvEx : RandEnv :=
  { turn_sign := 0, turn_amount := 0, next_turn_delay := 0, rand_val := 0,
    turn_sign2 := 0, turn_amount2 := 0, noise_x := 0, noise_z := 0 }

/-- An active bot standing at `x = 260`, beyond the half-arena. -/
def bot260Ex : BotPlayer :=
  { botActiveEx with position := { botPosEx with x := 260 } }

/-- A connected human `p1` carrying a score of 5. -/
def playerP1 : Player := { id := "p1", score := 5 }

/-- A server with the single live connection `p1 ↦ 1`. -/
def srvP1 : ServerState :=
  { active_connections := [("p1", 1)],
    game := { GameState.init with players := [("p1", playerP1)] },
    events := [], pending_removals := [] }

/-! ## Library lemmas for the dict and modulo primitives -/

theorem dictGet_insert_self {α : Type} (d : List (String × α)) (k : String)
    (v : α) : dictGet (dictInsert d k v) k = some v := by
  induction d with
  | nil => simp [dictInsert, dictGet]
  | cons hd tl ih =>
      obtain ⟨k0, v0⟩ := hd
      by_cases h : k0 = k
      · simp [dictInsert, dictGet, h]
      · simp [dictInsert, dictGet, h, ih]

theorem dictGet_insert_ne {α : Type} (d : List (String × α)) (k k' : String)
    (v : α) (h : k ≠ k') : dictGet (dictInsert d k v) k' = dictGet d k' := by
  induction d with
  | nil => simp [dictInsert, dictGet, h]
  | cons hd tl ih =>
      obtain ⟨k0, v0⟩ := hd
      by_cases h1 : k0 = k
      · subst h1
        simp [dictInsert, dictGet, h]
      · by_cases h2 : k0 = k'
        · subst h2
          simp [dictInsert, dictGet, h1, Ne.symm h]
        · simp [dictInsert, dictGet, h1, h2, ih]

theorem dictGet_eq_none_of_not_mem {α : Type} (d : List (String × α))
    (k : String) (h : k ∉ d.map Prod.fst) : dictGet d k = none := by
  induction d with
  | nil => rfl
  | cons hd tl ih =>
      obtain ⟨k0, v0⟩ := hd
      simp only [List.map_cons, List.mem_cons] at h
      push_neg at h
      have h0 : ¬k0 = k := fun hh => h.1 hh.symm
      simp [dictGet, h0, ih h.2]

theorem mergeInto_get_of_not_mem {α β : Type} (l : List (String × α))
    (acc : List (String × β)) (f : α → β) (k : String)
    (h : k ∉ l.map Prod.fst) :
    dictGet (mergeInto acc l f) k = dictGet acc k := by
  induction l generalizing acc with
  | nil => rfl
  | cons hd tl ih =>
      obtain ⟨k0, v0⟩ := hd
      simp only [List.map_cons, List.mem_cons] at h
      push_neg at h
      have h0 : k0 ≠ k := fun hh => h.1 hh.symm
      show dictGet (mergeInto (dictInsert acc k0 (f v0)) tl f) k = _
      rw [ih _ h.2, dictGet_insert_ne _ _ _ _ h0]

theorem mergeInto_get_of_get {α β : Type} (l : List (String × α))
    (acc : List (String × β)) (f : α → β) (k : String) (v : α)
    (hnd : (l.map Prod.fst).Nodup) (h : dictGet l k = some v) :
    dictGet (mergeInto acc l f) k = some (f v) := by
  induction l generalizing acc with
  | nil => simp [dictGet] at h
  | cons hd tl ih =>
      obtain ⟨k0, v0⟩ := hd
      simp only [List.map_cons, List.nodup_cons] at hnd
      by_cases hk : k0 = k
      · have hv : v = v0 := by
          simp [dictGet, hk] at h; exact h.symm
        rw [hv]
        show dictGet (mergeInto (dictInsert acc k0 (f v0)) tl f) k = some (f v0)
        have hnm : k ∉ tl.map Prod.fst := hk ▸ hnd.1
        rw [mergeInto_get_of_not_mem _ _ _ _ hnm, ← hk, dictGet_insert_self]
      · have h' : dictGet tl k = some v := by simpa [dictGet, hk] using h
        exact ih _ hnd.2 h'

theorem pmod_nonneg (a b : ℚ) (hb : 0 < b) : 0 ≤ pmod a b := by
  have h1 : ((⌊a / b⌋ : ℤ) : ℚ) ≤ a / b := Int.floor_le _
  have h2 : ((⌊a / b⌋ : ℤ) : ℚ) * b ≤ a := (le_div_iff₀ hb).mp h1
  unfold pmod
  nlinarith

theorem pmod_lt (a b : ℚ) (hb : 0 < b) : pmod a b < b := by
  have h1 : a / b < (⌊a / b⌋ : ℤ) + 1 := Int.lt_floor_add_one _
  have h2 : a < ((⌊a / b⌋ : ℚ) + 1) * b := (div_lt_iff₀ hb).mp h1
  unfold pmod
  nlinarith

theorem dictGet_map_none {α β : Type} (l : List (String × α)) (k : String)
    (v : α) (h : dictGet l k = some v) :
    dictGet (l.map fun p => (p.1, (none : Option β))) k = some none := by
  induction l with
  | nil => simp [dictGet] at h
  | cons hd tl ih =>
      obtain ⟨k0, v0⟩ := hd
      by_cases hk : k0 = k
      · simp [dictGet, hk]
      · simp only [dictGet, List.map_cons, if_neg hk] at h ⊢
        exact ih h

theorem map_fst_map_none {α β : Type} (l : List (String × α)) :
    (l.map fun p => (p.1, (none : Option β))).map Prod.fst =
      l.map Prod.fst := by
  induction l with
  | nil => rfl
  | cons hd tl ih => simp [ih]

theorem botSnapEntries_all_inactive (l : List (String × BotPlayer))
    (h : ∀ p ∈ l, p.2.active = false) :
    botSnapEntries l =
      Except.ok (l.map fun p => (p.1, (none : Option BotDict))) := by
  induction l with
  | nil => rfl
  | cons hd tl ih =>
      obtain ⟨bid, b⟩ := hd
      have hb : b.active = false := h (bid, b) (List.mem_cons_self _ _)
      have htl : ∀ p ∈ tl, p.2.active = false :=
        fun p hp => h p (List.mem_cons_of_mem _ hp)
      simp [botSnapEntries, BotPlayer.to_dict, hb, ih htl]

theorem botSnapEntries_active_raises (l : List (String × BotPlayer))
    (h : ∃ p ∈ l, p.2.active = true) :
    botSnapEntries l = Except.error "AttributeError" := by
  induction l with
  | nil => simp at h
  | cons hd tl ih =>
      obtain ⟨bid, b⟩ := hd
      by_cases hb : b.active
      · simp [botSnapEntries, BotPlayer.to_dict, hb]
      · have htl : ∃ p ∈ tl, p.2.active = true := by
          rcases h with ⟨p, hp, ha⟩
          rcases List.mem_cons.mp hp with he | hm
          · exfalso
            apply hb
            rw [he] at ha
            exact ha
          · exact ⟨p, hm, ha⟩
        simp [botSnapEntries, BotPlayer.to_dict, hb, ih htl]

/-! ## Claim C1 -/

/-- C1 counterexample: in a session holding the inactive bot `Bot_9`, the
snapshot returned by `GameState.get_state` maps the id `Bot_9` to Python
`None` — the id of an inactive bot does appear in the returned players
mapping, and its value is the sentinel rather than a complete record. -/
theorem C1_counterexample :
    botInactiveEx.active = false ∧
    gsInactiveBot.get_state.map
      (fun snap => dictGet snap.players "Bot_9") =
      Except.ok (some none) := by
  exact ⟨rfl, rfl⟩

/-- C1 (amended): `get_state` neither excludes inactive bots nor maps
active ones to complete records.  When every bot of the registry (keys
unique, as Python dicts guarantee) is inactive, the snapshot is returned
and maps each bot id to the sentinel `None`; and as soon as any bot is
active, serializing it raises `AttributeError`
(`Player.to_dict` calls `.dict()` on the bot's plain position dict), so
no snapshot is returned at all. -/
theorem C1_snapshot_sentinel_or_raises :
    (∀ (gs : GameState) (bid : String) (b : BotPlayer),
      (gs.bots.map Prod.fst).Nodup →
      (∀ p ∈ gs.bots, p.2.active = false) →
      dictGet gs.bots bid = some b →
      ∃ snap, gs.get_state = Except.ok snap ∧
        dictGet snap.players bid = some none) ∧
    (∀ gs : GameState, (∃ p ∈ gs.bots, p.2.active = true) →
      gs.get_state = Except.error "AttributeError") := by
  constructor
  · intro gs bid b hnd hinact hb
    have he := botSnapEntries_all_inactive gs.bots hinact
    have hss : gs.get_state = Except.ok
        { players := mergeInto
            (gs.players.map fun p => (p.1, some (SnapVal.humanV p.2.to_dict)))
            (gs.bots.map fun p => (p.1, (none : Option BotDict)))
            (Option.map SnapVal.botV),
          eliminated_players := gs.eliminated_players,
          game_phase := gs.game_phase,
          current_round := gs.current_round,
          player_count := gs.players.length + gs.bots.length,
          min_players := gs.min_players,
          bot_count := gs.bots.length } := by
      unfold GameState.get_state
      rw [he]
    refine ⟨_, hss, ?_⟩
    show dictGet
        (mergeInto
          (gs.players.map fun p => (p.1, some (SnapVal.humanV p.2.to_dict)))
          (gs.bots.map fun p => (p.1, (none : Option BotDict)))
          (Option.map SnapVal.botV)) bid = some none
    have hget := dictGet_map_none (β := BotDict) gs.bots bid b hb
    have hnd' : ((gs.bots.map
        fun p => (p.1, (none : Option BotDict))).map Prod.fst).Nodup := by
      rw [map_fst_map_none]
      exact hnd
    have hm := mergeInto_get_of_get
      (gs.bots.map fun p => (p.1, (none : Option BotDict)))
      (gs.players.map fun p => (p.1, some (SnapVal.humanV p.2.to_dict)))
      (Option.map SnapVal.botV) bid none hnd' hget
    simpa using hm
  · intro gs hact
    have he := botSnapEntries_active_raises gs.bots hact
    unfold GameState.get_state
    rw [he]

/-- Witness for C1: on the session holding the single inactive bot the
snapshot is returned with `Bot_9` mapped to the sentinel, and on the
session holding one active bot `get_state` raises. -/
theorem C1_witness :
    ((gsInactiveBot.bots.map Prod.fst).Nodup ∧
      gsInactiveBot.get_state.map
        (fun snap => dictGet snap.players "Bot_9") =
        Except.ok (some none)) ∧
    gsActiveBot.get_state = Except.error "AttributeError" := by
  constructor
  · refine ⟨by decide, ?_⟩
    obtain ⟨snap, hs, hv⟩ := C1_snapshot_sentinel_or_raises.1 gsInactiveBot
      "Bot_9" botInactiveEx (by decide) (by decide) rfl
    rw [hs]
    simpa [Except.map] using hv
  · exact C1_snapshot_sentinel_or_raises.2 gsActiveBot
      ⟨("Bot_1", botActiveEx), List.mem_cons_self _ _, rfl⟩

/-! ## Claim C2 -/

/-- C2 fails on the code: `GameState.update_player_position` hands the
position dict to `Player.update_position`, whose signature
`(self, x, y, z)` requires three positional floats, so the call raises
`TypeError` for every registered id — here evaluated at `player1` with
the repo's own test input `{x: 1.0, y: 2.0, z: 3.0}` (which
`tests/test_game_state.py::test_update_player_position` expects to become
the stored position). -/
theorem C2_update_position_raises :
    gsP1.update_player_position "player1" [("x", 1), ("y", 2), ("z", 3)] =
      Except.error "TypeError" := by
  rfl

/-! ## Claim C4 -/

/-- C4 counterexample: a frame that is invalid JSON is not dropped with
the connection kept open — the handler's `except Exception` catches the
`json.loads` error and `break`s, so the loop does not continue. -/
theorem C4_counterexample :
    (handleMessage "p1" gsP1 none).keep_running = false := by
  rfl

/-- C4 (amended): for every inbound message that is invalid JSON or lacks
a required field, the handler logs the error and the message has no
effect (game state unchanged, nothing broadcast), but the handler loop
terminates — the `except Exception` branch `break`s instead of continuing
with the next message. -/
theorem C4_malformed_ends_loop (pid : String) (gs : GameState)
    (m : Option JsonMsg) (h : Malformed m) :
    (handleMessage pid gs m).keep_running = false ∧
    (handleMessage pid gs m).game = gs ∧
    (handleMessage pid gs m).out = [] := by
  rcases h with h | ⟨msg, hm, hcase⟩
  · subst h
    exact ⟨rfl, rfl, rfl⟩
  · subst hm
    obtain ⟨ty, da⟩ := msg
    rcases hcase with hty | ⟨hty, hda⟩ | ⟨hty, hda⟩ | ⟨hty, hda⟩
    · simp only at hty
      subst hty
      exact ⟨rfl, rfl, rfl⟩
    · simp only at hty
      subst hty
      rcases hda with hda | ⟨d, hda, hpos⟩
      · simp only at hda
        subst hda
        exact ⟨rfl, rfl, rfl⟩
      · simp only at hda
        subst hda
        simp [handleMessage, hpos]
    · simp only at hty hda
      subst hty
      subst hda
      exact ⟨rfl, rfl, rfl⟩
    · simp only at hty hda
      subst hty
      subst hda
      exact ⟨rfl, rfl, rfl⟩

/-- Witness for C4: the amended theorem applied to the invalid-JSON frame
on the one-player session. -/
theorem C4_witness :
    Malformed (none : Option JsonMsg) ∧
    (handleMessage "player1" gsP1 none).keep_running = false := by
  refine ⟨Or.inl rfl, ?_⟩
  exact (C4_malformed_ends_loop "player1" gsP1 none (Or.inl rfl)).1

/-! ## Claim C5 -/

/-- C5: `start_game` below the `min_players` threshold changes nothing at
all (phase, round and eliminated set included), and at or above the
threshold it sets the phase to `playing`, the round to 1, and clears the
eliminated set. -/
theorem C5_start_game_threshold (gs : GameState) :
    (gs.players.length + gs.bots.length < gs.min_players →
      gs.start_game = gs) ∧
    (gs.players.length + gs.bots.length ≥ gs.min_players →
      gs.start_game.game_phase = "playing" ∧
      gs.start_game.current_round = 1 ∧
      gs.start_game.eliminated_players = []) := by
  constructor
  · intro h
    have hcs : gs.can_start_game = false := by
      simp only [GameState.can_start_game, decide_eq_false_iff_not]
      omega
    simp [GameState.start_game, hcs]
  · intro h
    have hcs : gs.can_start_game = true := by
      simp only [GameState.can_start_game, decide_eq_true_eq]
      omega
    simp [GameState.start_game, hcs]

/-- Witness for C5: the one-player session cannot start (and is left
unchanged); after a second player joins, starting yields phase `playing`,
round 1 and an empty eliminated set. -/
theorem C5_witness :
    (gsP1.players.length + gsP1.bots.length < gsP1.min_players ∧
      gsP1.start_game = gsP1) ∧
    (((gsP1.add_player "p2").1.players.length +
        (gsP1.add_player "p2").1.bots.length ≥
        (gsP1.add_player "p2").1.min_players) ∧
      (gsP1.add_player "p2").1.start_game.game_phase = "playing" ∧
      (gsP1.add_player "p2").1.start_game.current_round = 1 ∧
      (gsP1.add_player "p2").1.start_game.eliminated_players = []) := by
  constructor
  · exact ⟨by decide, (C5_start_game_threshold gsP1).1 (by decide)⟩
  · exact ⟨by decide,
      (C5_start_game_threshold (gsP1.add_player "p2").1).2 (by decide)⟩

/-! ## Claim C6 -/

/-- C6: elimination is idempotent — a second `eliminate_player` for the
same id reproduces exactly the state of the first call (eliminated list
and participant registries included) — and eliminating an id registered
neither as a human nor as a bot leaves the state unchanged. -/
theorem C6_eliminate_idempotent (gs : GameState) (pid : String) :
    (gs.eliminate_player pid).eliminate_player pid =
      gs.eliminate_player pid ∧
    (dictGet gs.players pid = none → dictGet gs.bots pid = none →
      gs.eliminate_player pid = gs) := by
  constructor
  · rcases hp : dictGet gs.players pid with _ | p
    · rcases hb : dictGet gs.bots pid with _ | b
      · simp [GameState.eliminate_player, hp, hb]
      · by_cases hc : pid ∈ gs.eliminated_players
        · simp [GameState.eliminate_player, hp, hb, hc]
        · have h1 : gs.eliminate_player pid =
              { gs with bots := dictInsert gs.bots pid b.eliminate,
                        eliminated_players :=
                          gs.eliminated_players ++ [pid] } := by
            simp [GameState.eliminate_player, hp, hb, hc]
          rw [h1]
          simp [GameState.eliminate_player, hp, dictGet_insert_self]
    · by_cases hc : pid ∈ gs.eliminated_players
      · simp [GameState.eliminate_player, hp, hc]
      · have h1 : gs.eliminate_player pid =
            { gs with players := dictInsert gs.players pid p.eliminate,
                      eliminated_players :=
                        gs.eliminated_players ++ [pid] } := by
          simp [GameState.eliminate_player, hp, hc]
        rw [h1]
        simp [GameState.eliminate_player, dictGet_insert_self]
  · intro hp hb
    simp [GameState.eliminate_player, hp, hb]

/-- Witness for C6: eliminating `player1` twice in the one-player session
equals eliminating once, and eliminating the unknown id `ghost` is a
no-op. -/
theorem C6_witness :
    (gsP1.eliminate_player "player1").eliminate_player "player1" =
      gsP1.eliminate_player "player1" ∧
    (dictGet gsP1.players "ghost" = none ∧
      dictGet gsP1.bots "ghost" = none ∧
      gsP1.eliminate_player "ghost" = gsP1) := by
  refine ⟨(C6_eliminate_idempotent gsP1 "player1").1, by decide, by decide, ?_⟩
  exact (C6_eliminate_idempotent gsP1 "ghost").2 (by decide) (by decide)

/-! ## Claim C3 -/

/-- C3 fails on the code: with `p1` connected (connection 1, score 5), the
transport drop at `t = 0` runs the handler's `finally` cleanup, which
broadcasts `player_left` for `p1` immediately and deletes its participant
record — both inside the 5-second window.  The reconnect at `t = 1` then
finds no registered connection, so it is handled as a brand-new join:
`player_joined` is broadcast for `p1` and a fresh record with score 0
replaces the old score-5 record.  (On the branch where the old connection
is still registered, the source instead calls
`game_state.update_player`, a method `GameState` does not define, and the
resulting `AttributeError` drives the same `finally` cleanup.) -/
theorem C3_no_grace_on_disconnect :
    Ev.player_left "p1" ∈ (cleanupAfterLoop srvP1 "p1" 1 0).events ∧
    dictGet (cleanupAfterLoop srvP1 "p1" 1 0).game.players "p1" = none ∧
    Ev.player_joined "p1" ∈
      (connectStep (cleanupAfterLoop srvP1 "p1" 1 0) "p1" 2 1).events ∧
    (dictGet (connectStep (cleanupAfterLoop srvP1 "p1" 1 0) "p1" 2
        1).game.players "p1").map Player.score = some 0 := by
  refine ⟨?_, rfl, ?_, rfl⟩
  · decide
  · decide

/-! ## Claim C8 -/

/-- C8 counterexample: ending the game from the freshly constructed
session is a reachable operation sequence after which the phase is
`finished` (not `waiting`) while `current_round` is still 0 — so
`current_round = 0` does not hold exactly while the phase is waiting. -/
theorem C8_counterexample :
    Reachable GameState.init.end_game ∧
    GameState.init.end_game.game_phase ≠ "waiting" ∧
    GameState.init.end_game.current_round = 0 := by
  refine ⟨Reachable.finish Reachable.init, ?_, rfl⟩
  decide

/-- C8 (amended): over every sequence of session operations,
`current_round` is a non-negative integer that is 0 while the phase is
`waiting` and 1 while the phase is `playing` (in particular 1 immediately
after a successful start); but since `end_game` does not touch the round,
a session ended before any successful start is `finished` with
`current_round` still 0, so round 0 is not exclusive to the waiting
phase. -/
theorem C8_round_invariant :
    (∀ gs : GameState, Reachable gs →
      0 ≤ gs.current_round ∧
      (gs.game_phase = "waiting" → gs.current_round = 0) ∧
      (gs.game_phase = "playing" → gs.current_round = 1)) ∧
    (∀ gs : GameState, gs.can_start_game = true →
      gs.start_game.game_phase = "playing" ∧
      gs.start_game.current_round = 1) := by
  constructor
  · intro gs h
    induction h with
    | init => refine ⟨le_refl 0, fun _ => rfl, fun hp => ?_⟩
              exact absurd hp (by decide)
    | start h ih =>
        rename_i gs'
        by_cases hcs : gs'.can_start_game
        · simp [GameState.start_game, hcs]
        · simp only [GameState.start_game, hcs, if_false, Bool.false_eq_true]
          exact ih
    | finish h ih =>
        rename_i gs'
        refine ⟨ih.1, fun hw => ?_, fun hp => ?_⟩
        · exact absurd hw (by simp [GameState.end_game])
        · exact absurd hp (by simp [GameState.end_game])
    | add pid h ih => exact ih
    | remove pid h ih => exact ih
    | elim pid h ih =>
        rename_i gs'
        have : (gs'.eliminate_player pid).current_round =
              gs'.current_round ∧
            (gs'.eliminate_player pid).game_phase = gs'.game_phase := by
          unfold GameState.eliminate_player
          rcases dictGet gs'.players pid with _ | p
          · rcases dictGet gs'.bots pid with _ | b
            · exact ⟨rfl, rfl⟩
            · by_cases hc : pid ∈ gs'.eliminated_players <;>
                simp [hc]
          · by_cases hc : pid ∈ gs'.eliminated_players <;>
              simp [hc]
        rw [this.1, this.2]
        exact ih
    | move pid d h hok ih =>
        rename_i gs' gs2
        have hgs : gs2 = gs' := by
          unfold GameState.update_player_position at hok
          rcases hp : dictGet gs'.players pid with _ | p
          · rw [hp] at hok
            simp at hok
            exact hok.symm
          · rw [hp] at hok
            simp [Player.update_position_apply] at hok
        rw [hgs]
        exact ih
    | addBot bid b h ih => exact ih
    | clearBots h ih => exact ih
  · intro gs hcs
    simp [GameState.start_game, hcs]

/-- Witness for C8: the invariant at the freshly constructed session, and
the successful-start clause at the two-player session. -/
theorem C8_witness :
    (0 ≤ GameState.init.current_round ∧
      (GameState.init.game_phase = "waiting" →
        GameState.init.current_round = 0)) ∧
    ((gsP1.add_player "p2").1.can_start_game = true ∧
      (gsP1.add_player "p2").1.start_game.game_phase = "playing" ∧
      (gsP1.add_player "p2").1.start_game.current_round = 1) := by
  constructor
  · have h := (C8_round_invariant.1 GameState.init Reachable.init)
    exact ⟨h.1, h.2.1⟩
  · exact ⟨by decide, C8_round_invariant.2 (gsP1.add_player "p2").1 (by decide)⟩

/-! ## Claim C9 -/

/-- C9: for a not-yet-active bot, one tick activates it exactly when the
current time has reached its spawn time — reporting a change on the
activating tick and leaving the whole record (position and heading
included) untouched otherwise — and for an active bot within the
update-throttle interval of its last applied update, the tick reports no
change and modifies nothing but the accumulated `last_update_time`. -/
theorem C9_activation_and_throttle (b : BotPlayer) (dt tp : ℚ)
    (env : MathEnv) (rnd : RandEnv) (t : ℚ) :
    (b.active = false → t ≥ b.spawn_time →
      b.update_bot dt tp env rnd t = ({ b with active := true }, true)) ∧
    (b.active = false → t < b.spawn_time →
      b.update_bot dt tp env rnd t = (b, false)) ∧
    (b.active = true → t - b.last_position_update < b.update_frequency →
      b.update_bot dt tp env rnd t =
        ({ b with last_update_time := b.last_update_time + dt }, false)) := by
  refine ⟨fun ha hs => ?_, fun ha hs => ?_, fun ha hs => ?_⟩
  · simp [BotPlayer.update_bot, ha, hs]
  · simp [BotPlayer.update_bot, ha, not_le.mpr hs]
  · simp [BotPlayer.update_bot, ha, hs]

/-- Witness for C9: the inactive bot `Bot_9` (spawn time 100) activates at
`t = 150` and stays untouched at `t = 50`; the active bot is throttled at
`t = 1/20` after an applied update at 0. -/
theorem C9_witness :
    botInactiveEx.update_bot (1 / 10) 0 mathEnvEx randEnvEx 150 =
      ({ botInactiveEx with active := true }, true) ∧
    botInactiveEx.update_bot (1 / 10) 0 mathEnvEx randEnvEx 50 =
      (botInactiveEx, false) ∧
    botActiveEx.update_bot (1 / 10) 0 mathEnvEx randEnvEx (1 / 20) =
      ({ botActiveEx with
          last_update_time := botActiveEx.last_update_time + 1 / 10 },
        false) := by
  refine ⟨?_, ?_, ?_⟩
  · exact (C9_activation_and_throttle botInactiveEx (1 / 10) 0 mathEnvEx
      randEnvEx 150).1 rfl (by norm_num [botInactiveEx])
  · exact (C9_activation_and_throttle botInactiveEx (1 / 10) 0 mathEnvEx
      randEnvEx 50).2.1 rfl (by norm_num [botInactiveEx])
  · exact (C9_activation_and_throttle botActiveEx (1 / 10) 0 mathEnvEx
      randEnvEx (1 / 20)).2.2 rfl (by norm_num [botActiveEx])

theorem dictGet_map_human (l : List (String × Player)) (k : String) :
    dictGet (l.map fun p => (p.1, some (SnapVal.humanV p.2.to_dict))) k =
      (dictGet l k).map (fun v => some (SnapVal.humanV v.to_dict)) := by
  induction l with
  | nil => rfl
  | cons hd tl ih =>
      obtain ⟨k0, v0⟩ := hd
      by_cases h : k0 = k <;> simp [dictGet, h, ih]

/-! ## Claim C10 -/

/-- C10 counterexample: the id `Bot_1`, eliminated as a bot and then
re-added as a human, does stay in `eliminated_players` and does get a
fresh non-eliminated human record — but the next `get_state` reports
nothing at all for that id: serializing the still-registered active bot
`Bot_1` raises `AttributeError`, so no players mapping is returned. -/
theorem C10_counterexample :
    "Bot_1" ∈ gsC10.eliminated_players ∧
    (dictGet gsC10.players "Bot_1").map Player.is_eliminated = some false ∧
    gsC10.get_state = Except.error "AttributeError" := by
  exact ⟨by decide, rfl, rfl⟩

/-- C10 (amended): for every id in `eliminated_players` that is not a key
of the bot registry, `add_player` installs a fresh participant with
`is_eliminated = false` and score 0 while the id remains in
`eliminated_players`; and in the states where a snapshot is returned at
all — those whose bots are all inactive, since serializing any active
bot raises `AttributeError` — the next `get_state` reports the id both
as a non-eliminated entry of the players mapping and as a member of
`eliminated_players`. -/
theorem C10_readd_keeps_eliminated (gs : GameState) (pid : String)
    (helim : pid ∈ gs.eliminated_players)
    (hbot : pid ∉ gs.bots.map Prod.fst)
    (hinact : ∀ p ∈ gs.bots, p.2.active = false) :
    dictGet (gs.add_player pid).1.players pid = some { id := pid } ∧
    pid ∈ (gs.add_player pid).1.eliminated_players ∧
    ∃ snap, (gs.add_player pid).1.get_state = Except.ok snap ∧
      dictGet snap.players pid =
        some (some (SnapVal.humanV
          { id := pid, position := some { x := 0, y := 1, z := 0 },
            is_eliminated := false, score := 0 })) ∧
      pid ∈ snap.eliminated_players := by
  refine ⟨?_, helim, ?_⟩
  · simp [GameState.add_player, dictGet_insert_self]
  · have he := botSnapEntries_all_inactive (gs.add_player pid).1.bots hinact
    have hss : (gs.add_player pid).1.get_state = Except.ok
        { players := mergeInto
            ((gs.add_player pid).1.players.map
              fun p => (p.1, some (SnapVal.humanV p.2.to_dict)))
            ((gs.add_player pid).1.bots.map
              fun p => (p.1, (none : Option BotDict)))
            (Option.map SnapVal.botV),
          eliminated_players := (gs.add_player pid).1.eliminated_players,
          game_phase := (gs.add_player pid).1.game_phase,
          current_round := (gs.add_player pid).1.current_round,
          player_count := (gs.add_player pid).1.players.length +
            (gs.add_player pid).1.bots.length,
          min_players := (gs.add_player pid).1.min_players,
          bot_count := (gs.add_player pid).1.bots.length } := by
      unfold GameState.get_state
      rw [he]
    refine ⟨_, hss, ?_, ?_⟩
    · show dictGet
          (mergeInto
            ((gs.add_player pid).1.players.map
              fun p => (p.1, some (SnapVal.humanV p.2.to_dict)))
            ((gs.add_player pid).1.bots.map
              fun p => (p.1, (none : Option BotDict)))
            (Option.map SnapVal.botV)) pid =
          some (some (SnapVal.humanV
            { id := pid, position := some { x := 0, y := 1, z := 0 },
              is_eliminated := false, score := 0 }))
      have hnm : pid ∉ ((gs.add_player pid).1.bots.map
          fun p => (p.1, (none : Option BotDict))).map Prod.fst := by
        rw [map_fst_map_none]
        exact hbot
      rw [mergeInto_get_of_not_mem _ _ _ _ hnm, dictGet_map_human]
      simp [GameState.add_player, dictGet_insert_self, Player.to_dict]
    · exact helim

/-- Witness for C10: the human `p2`, eliminated and re-added in a botless
session, shows up in the returned snapshot as a fresh non-eliminated
entry while still listed in `eliminated_players`. -/
theorem C10_witness :
    "p2" ∈ ((GameState.init.add_player "p2").1.eliminate_player
        "p2").eliminated_players ∧
    (∃ snap, gsC10h.get_state = Except.ok snap ∧
      dictGet snap.players "p2" =
        some (some (SnapVal.humanV
          { id := "p2", position := some { x := 0, y := 1, z := 0 },
            is_eliminated := false, score := 0 })) ∧
      "p2" ∈ snap.eliminated_players) := by
  have h := C10_readd_keeps_eliminated
    ((GameState.init.add_player "p2").1.eliminate_player "p2") "p2"
    (by decide) (by decide) (by decide)
  exact ⟨by decide, h.2.2⟩

theorem half_arena : arena_size / 2 = (250 : ℚ) := by
  norm_num [arena_size]

theorem stepTurn_position (b : BotPlayer) (tp : ℚ) (env : MathEnv)
    (rnd : RandEnv) : ((b.stepTurn tp env rnd).1).position = b.position := by
  unfold BotPlayer.stepTurn
  split
  · rfl
  · split <;> rfl

theorem stepTurn_speed (b : BotPlayer) (tp : ℚ) (env : MathEnv)
    (rnd : RandEnv) : ((b.stepTurn tp env rnd).1).speed = b.speed := by
  unfold BotPlayer.stepTurn
  split
  · rfl
  · split <;> rfl

theorem update_bot_applied (b : BotPlayer) (dt tp : ℚ) (env : MathEnv)
    (rnd : RandEnv) (t : ℚ) (ha : b.active = true)
    (hth : ¬(t - b.last_position_update < b.update_frequency)) :
    b.update_bot dt tp env rnd t = b.appliedTick dt tp env rnd t := by
  unfold BotPlayer.update_bot
  simp [ha, hth]


theorem appliedTick_fst_eq (b : BotPlayer) (dt tp : ℚ) (env : MathEnv)
    (rnd : RandEnv) (t : ℚ) :
    (b.appliedTick dt tp env rnd t).1 =
      pipelineAfterTurn (b.afterTurn dt tp env rnd t) dt env rnd := rfl

theorem pipelineAfterTurn_x_bounce (a : BotPlayer) (dt : ℚ) (env : MathEnv)
    (rnd : RandEnv)
    (hx : |a.position.x + env.sin a.direction * a.speed * dt| > 250) :
    (pipelineAfterTurn a dt env rnd).position.x =
      250 * (if a.position.x + env.sin a.direction * a.speed * dt > 0
             then 1 else -1) ∧
    (|a.position.z + env.cos a.direction * a.speed * dt| ≤ 250 →
      (pipelineAfterTurn a dt env rnd).direction =
        pmod (env.pi - a.direction + rnd.noise_x) (2 * env.pi)) := by
  have h1 : arena_size / 2 <
      |a.position.x + env.sin a.direction * a.speed * dt| := by
    rw [half_arena]
    exact hx
  constructor
  · by_cases h2 : arena_size / 2 <
        |a.position.z + env.cos a.direction * a.speed * dt|
    · simp only [pipelineAfterTurn, BotPlayer.stepBounceZ,
        BotPlayer.stepBounceX, BotPlayer.stepMove, h1, h2, if_true, gt_iff_lt]
      split_ifs <;> norm_num [arena_size]
    · simp only [pipelineAfterTurn, BotPlayer.stepBounceZ,
        BotPlayer.stepBounceX, BotPlayer.stepMove, h1, h2, if_true, if_false,
        gt_iff_lt]
      split_ifs <;> norm_num [arena_size]
  · intro hz
    have h2 : ¬(arena_size / 2 <
        |a.position.z + env.cos a.direction * a.speed * dt|) := by
      rw [half_arena]
      exact not_lt.mpr hz
    simp only [pipelineAfterTurn, BotPlayer.stepBounceZ,
      BotPlayer.stepBounceX, BotPlayer.stepMove, h1, h2, if_true, if_false,
      gt_iff_lt]

theorem pipelineAfterTurn_z_bounce (a : BotPlayer) (dt : ℚ) (env : MathEnv)
    (rnd : RandEnv)
    (hx : |a.position.x + env.sin a.direction * a.speed * dt| ≤ 250)
    (hz : |a.position.z + env.cos a.direction * a.speed * dt| > 250) :
    (pipelineAfterTurn a dt env rnd).position.z =
      250 * (if a.position.z + env.cos a.direction * a.speed * dt > 0
             then 1 else -1) ∧
    (pipelineAfterTurn a dt env rnd).direction =
      pmod (-a.direction + rnd.noise_z) (2 * env.pi) := by
  have h1 : ¬(arena_size / 2 <
      |a.position.x + env.sin a.direction * a.speed * dt|) := by
    rw [half_arena]
    exact not_lt.mpr hx
  have h2 : arena_size / 2 <
      |a.position.z + env.cos a.direction * a.speed * dt| := by
    rw [half_arena]
    exact hz
  constructor
  · simp only [pipelineAfterTurn, BotPlayer.stepBounceZ,
      BotPlayer.stepBounceX, BotPlayer.stepMove, h1, h2, if_true, if_false,
      gt_iff_lt]
    split_ifs <;> norm_num [arena_size]
  · simp only [pipelineAfterTurn, BotPlayer.stepBounceZ,
      BotPlayer.stepBounceX, BotPlayer.stepMove, h1, h2, if_true, if_false,
      gt_iff_lt]

theorem pipelineAfterTurn_direction_mem (a : BotPlayer) (dt : ℚ)
    (env : MathEnv) (rnd : RandEnv) (hpi : 0 < env.pi) :
    0 ≤ (pipelineAfterTurn a dt env rnd).direction ∧
    (pipelineAfterTurn a dt env rnd).direction < 2 * env.pi := by
  have h2 : (0 : ℚ) < 2 * env.pi := by linarith
  exact ⟨pmod_nonneg _ _ h2, pmod_lt _ _ h2⟩

theorem C7_boundary_reflection :
    (∀ (b : BotPlayer) (dt tp : ℚ) (env : MathEnv) (rnd : RandEnv) (t : ℚ)
        (a : BotPlayer), a = b.afterTurn dt tp env rnd t →
      b.active = true →
      ¬(t - b.last_position_update < b.update_frequency) →
      (|a.position.x + env.sin a.direction * a.speed * dt| > 250 →
        (b.update_bot dt tp env rnd t).1.position.x =
          250 * (if a.position.x + env.sin a.direction * a.speed * dt > 0
                 then 1 else -1) ∧
        (-(1 / 5) ≤ rnd.noise_x → rnd.noise_x ≤ 1 / 5 →
          |a.position.z + env.cos a.direction * a.speed * dt| ≤ 250 →
          (b.update_bot dt tp env rnd t).1.direction =
            pmod (env.pi - a.direction + rnd.noise_x) (2 * env.pi))) ∧
      (|a.position.x + env.sin a.direction * a.speed * dt| ≤ 250 →
        |a.position.z + env.cos a.direction * a.speed * dt| > 250 →
        -(1 / 5) ≤ rnd.noise_z → rnd.noise_z ≤ 1 / 5 →
        (b.update_bot dt tp env rnd t).1.position.z =
          250 * (if a.position.z + env.cos a.direction * a.speed * dt > 0
                 then 1 else -1) ∧
        (b.update_bot dt tp env rnd t).1.direction =
          pmod (-a.direction + rnd.noise_z) (2 * env.pi)) ∧
      (0 < env.pi →
        0 ≤ (b.update_bot dt tp env rnd t).1.direction ∧
        (b.update_bot dt tp env rnd t).1.direction < 2 * env.pi)) ∧
    (∀ (b : BotPlayer) (dt tp : ℚ) (env : MathEnv) (rnd : RandEnv) (t : ℚ),
      b.active = true →
      ¬(t - b.last_position_update < b.update_frequency) →
      b.position.x = 260 → 40 ≤ b.speed → b.speed ≤ 80 →
      0 ≤ dt → dt ≤ 1 / 10 → (∀ y, |env.sin y| ≤ 1) →
      (b.update_bot dt tp env rnd t).1.position.x = 250) := by
  constructor
  · intro b dt tp env rnd t a hadef ha hth
    rw [update_bot_applied b dt tp env rnd t ha hth, appliedTick_fst_eq,
      ← hadef]
    refine ⟨fun hx => ?_, fun hx hz hn1 hn2 => ?_, fun hpi => ?_⟩
    · exact ⟨(pipelineAfterTurn_x_bounce a dt env rnd hx).1,
        fun _ _ hz => (pipelineAfterTurn_x_bounce a dt env rnd hx).2 hz⟩
    · exact pipelineAfterTurn_z_bounce a dt env rnd hx hz
    · exact pipelineAfterTurn_direction_mem a dt env rnd hpi
  · intro b dt tp env rnd t ha hth hx260 hs40 hs80 hdt0 hdt1 hsin
    rw [update_bot_applied b dt tp env rnd t ha hth, appliedTick_fst_eq]
    set a := b.afterTurn dt tp env rnd t with hadef
    have hax : a.position.x = 260 := by
      rw [hadef]
      unfold BotPlayer.afterTurn
      rw [stepTurn_position]
      exact hx260
    have hasp : a.speed = b.speed := by
      rw [hadef]
      unfold BotPlayer.afterTurn
      rw [stepTurn_speed]
    have habs : |env.sin a.direction * a.speed * dt| ≤ 8 := by
      rw [abs_mul, abs_mul]
      have e1 : |a.speed| = a.speed := abs_of_nonneg (by rw [hasp]; linarith)
      have e2 : |dt| = dt := abs_of_nonneg hdt0
      rw [e1, e2, hasp]
      have h01 : |env.sin a.direction| ≤ 1 := hsin _
      have hsp0 : (0 : ℚ) ≤ b.speed := by linarith
      have hA : |env.sin a.direction| * b.speed * dt ≤ b.speed * dt := by
        have h2 := mul_le_mul_of_nonneg_right
          (mul_le_mul_of_nonneg_right h01 hsp0) hdt0
        linarith
      have hB : b.speed * dt ≤ 8 := by
        calc b.speed * dt ≤ 80 * dt := mul_le_mul_of_nonneg_right hs80 hdt0
          _ ≤ 80 * (1 / 10) := mul_le_mul_of_nonneg_left hdt1 (by norm_num)
          _ = 8 := by norm_num
      linarith
    have hsum : a.position.x + env.sin a.direction * a.speed * dt > 250 := by
      have hb := abs_le.mp habs
      rw [hax]
      linarith [hb.1]
    have hxgt : |a.position.x + env.sin a.direction * a.speed * dt| > 250 := by
      rw [abs_of_pos (by linarith : (0 : ℚ) <
        a.position.x + env.sin a.direction * a.speed * dt)]
      exact hsum
    rw [(pipelineAfterTurn_x_bounce a dt env rnd hxgt).1,
      if_pos (show a.position.x + env.sin a.direction * a.speed * dt > 0 by
        linarith)]
    norm_num

theorem C7_witness :
    (0 ≤ (bot260Ex.update_bot (1 / 10) 0 mathEnvEx randEnvEx 1).1.direction ∧
      (bot260Ex.update_bot (1 / 10) 0 mathEnvEx randEnvEx 1).1.direction <
        2 * mathEnvEx.pi) ∧
    (bot260Ex.update_bot (1 / 10) 0 mathEnvEx randEnvEx 1).1.position.x =
      250 := by
  constructor
  · exact (C7_boundary_reflection.1 bot260Ex (1 / 10) 0 mathEnvEx randEnvEx 1
      _ rfl rfl (by norm_num [bot260Ex, botActiveEx])).2.2
      (by norm_num [mathEnvEx])
  · exact C7_boundary_reflection.2 bot260Ex (1 / 10) 0 mathEnvEx randEnvEx 1
      rfl (by norm_num [bot260Ex, botActiveEx]) rfl
      (by norm_num [bot260Ex, botActiveEx])
      (by norm_num [bot260Ex, botActiveEx]) (by norm_num) (by norm_num)
      (fun y => by simp [mathEnvEx])
